import Mathlib

/-!
# Verification of the floka container runtime against its specification

Shallow embedding of the floka sources (a small educational container
runtime written in Go) and proofs about the embedded definitions.

Strings manipulated by the program are modelled as `List Char`
(`Chars` below); filesystem paths as lists of path components
(`FPath := List Chars`).  Go's `int64` arithmetic is modelled with `Int`,
with two's-complement wrapping (`wrap64`) applied exactly where the Go
code can overflow (the final multiplication of `parseMemoryLimit`).
Go's integer division truncates toward zero, which is `Int.tdiv`.
-/
deriving instance DecidableEq for Except

/-! ## Characters and decimal digit strings -/
abbrev Chars := List Char

/-- The character list of a string literal. -/
def chars (s : String) : Chars := s.data

/-- The decimal digit character for `n < 10` (as produced by Go's
`strconv.FormatInt` / `fmt.Sprintf("%d", ·)` for a single digit). -/
def digitChar (n : Nat) : Char := Char.ofNat (48 + n)

/-- Fuelled decimal rendering: digits of `n`, most significant first.
The fuel only serves to make the recursion structural; `natDigits`
supplies enough fuel for the whole number. -/
def natDigitsF : Nat → Nat → Chars
  | 0, _ => []
  | fuel + 1, n =>
    if n < 10 then [digitChar n]
    else natDigitsF fuel (n / 10) ++ [digitChar (n % 10)]

/-- The decimal rendering of a natural number, as written by Go's
`fmt.Sprintf("%d", n)` for nonnegative values. -/
def natDigits (n : Nat) : Chars := natDigitsF (n + 1) n

/-- Numeric value of a decimal digit character. -/
def charVal (c : Char) : Nat := c.toNat - 48

/-- Value of a string of decimal digits (junk on non-digits). -/
def valDigits (cs : Chars) : Nat := cs.foldl (fun a c => a * 10 + charVal c) 0

/-! ## Memory limit parsing (`parseMemoryLimit` in cmd/main.go)

Go's `strconv.ParseInt(s, 10, 64)` accepts an optional sign followed by at
least one decimal digit, and errors when the value does not fit in an
`int64`.  The final `value * multiplier` in the Go code is `int64`
multiplication, which wraps; `wrap64` models that two's-complement wrap. -/
/-- Two's-complement wrap of an integer into the `int64` range. -/
def wrap64 (v : Int) : Int := (v + 2 ^ 63) % 2 ^ 64 - 2 ^ 63

/-- Digit-run parsing and range check of `strconv.ParseInt(·, 10, 64)`
after the sign has been handled. -/
def parseIntCore (ds : Chars) (neg : Bool) : Option Int :=
  if ds = [] then none
  else if ds.all Char.isDigit then
    let v := valDigits ds
    if neg then (if v ≤ 2 ^ 63 then some (-(v : Int)) else none)
    else (if v ≤ 2 ^ 63 - 1 then some (v : Int) else none)
  else none

/-- Go's `strconv.ParseInt(s, 10, 64)`: success/failure and the returned
value for in-range inputs. -/
def parseIntGo (cs : Chars) : Option Int :=
  match cs with
  | [] => none
  | c :: rest =>
    if c = '-' then parseIntCore rest true
    else if c = '+' then parseIntCore rest false
    else parseIntCore (c :: rest) false

/-- The suffix-detection step of `parseMemoryLimit`: the chain of
`strings.HasSuffix` tests on the lowercased input, yielding the chosen
multiplier and the input with the suffix stripped. -/
def stripSuffixKMG (l : Chars) : Int × Chars :=
  if l.getLast? = some 'k' then (1024, l.dropLast)
  else if l.getLast? = some 'm' then (1024 * 1024, l.dropLast)
  else if l.getLast? = some 'g' then (1024 * 1024 * 1024, l.dropLast)
  else (1, l)

/-- `parseMemoryLimit` from cmd/main.go: lowercase the input, strip an
optional `k`/`m`/`g` suffix choosing the multiplier, parse the rest with
`strconv.ParseInt(·, 10, 64)`, and return `value * multiplier`
(an `int64` multiplication, hence the wrap). -/
def parseMemoryLimit (limit : Chars) : Option Int :=
  (parseIntGo (stripSuffixKMG (limit.map Char.toLower)).2).map
    (fun v => wrap64 (v * (stripSuffixKMG (limit.map Char.toLower)).1))

/-- The suffix multipliers as the specification words them: `k` ×1024,
`m` ×1024², `g` ×1024³, case-insensitive, none ⇒ bytes. -/
def claimedSuffixValue (s : Chars) : Int :=
  if s = chars "k" ∨ s = chars "K" then 1024
  else if s = chars "m" ∨ s = chars "M" then 1024 * 1024
  else if s = chars "g" ∨ s = chars "G" then 1024 * 1024 * 1024
  else 1

/-- Shape check matching `strconv.ParseInt(·, 10, 64)` syntax: optional
sign followed by at least one decimal digit ("numeric" input). -/
def numericBody (ds : Chars) : Bool :=
  match ds with
  | [] => false
  | c :: rest =>
    if c = '-' ∨ c = '+' then !rest.isEmpty && rest.all Char.isDigit
    else ds.all Char.isDigit

/-- A memory-limit string is numeric when, after lowercasing and
stripping the optional `k`/`m`/`g` suffix, a numeric body remains. -/
def numericLimit (cs : Chars) : Bool :=
  numericBody (stripSuffixKMG (cs.map Char.toLower)).2

/-! ## CPU shares → cgroup v2 weight (`setupCgroups` in pkg/container/container.go)

The Go code computes `weight := 1 + ((shares - 2) * 9998) / 262142` with
`int64` arithmetic (division truncating toward zero, `Int.tdiv`) and then
clamps sequentially to at least 1 and at most 10000.  The claim frames the
function in exact integer arithmetic, which agrees with the Go code
whenever `(shares - 2) * 9998` does not overflow an `int64` (true for the
whole shares range discussed by the claim). -/
/-- The shares-to-weight conversion of `setupCgroups` (cgroup v2 branch). -/
def cpuWeight (shares : Int) : Int :=
  let weight := 1 + ((shares - 2) * 9998).tdiv 262142
  let weight2 := if weight < 1 then 1 else weight
  if weight2 > 10000 then 10000 else weight2

/-! ## Image reference parsing (`GetImagesFromLocalStorage` in pkg/fimage/fimage.go)

For each subdirectory of `images/` the Go code does
`strings.Split(fullName, ":")`, takes `parts[0]` as the name and, when
there is more than one part, `parts[1]` as the tag; with no `:` the tag
is `"latest"`. -/
/-- Go's `strings.Split(s, sep)` for a single-character separator: the
result is always non-empty, a separator opens a new field, and any other
character is prepended to the first field of the remainder. -/
def splitOnChar (sep : Char) : Chars → List Chars
  | [] => [[]]
  | c :: rest =>
    let r := splitOnChar sep rest
    if c = sep then [] :: r else (c :: r.headI) :: r.tail

/-- The name/tag parsing of `GetImagesFromLocalStorage` applied to one
directory name of the image store. -/
def parseImageRef (fullName : Chars) : Chars × Chars :=
  if fullName.contains ':' then
    let parts := splitOnChar ':' fullName
    (parts.getD 0 fullName,
      if parts.length > 1 then parts.getD 1 (chars "latest") else chars "latest")
  else (fullName, chars "latest")

/-! ## Buildfile parser (`Parse` in pkg/flokafile/parser.go)

The Go parser scans the file line by line: trims each line, skips empty
lines and `#` comments, folds a line ending in `\` into a pending
instruction, and otherwise flushes the pending instruction and parses the
line as a new instruction `(command, args)` split at the first space with
the command upper-cased. -/
/-- ASCII/Unicode whitespace recognised by Go's `strings.TrimSpace`
(restricted to the ASCII range, which is all the proofs use). -/
def isSpaceChar (c : Char) : Bool :=
  c == ' ' || c == '\t' || c == '\n' || c == '\x0b' || c == '\x0c' || c == '\r'

/-- Go's `strings.TrimSpace`. -/
def trimChars (cs : Chars) : Chars :=
  ((cs.dropWhile isSpaceChar).reverse.dropWhile isSpaceChar).reverse

/-- Go's `strings.SplitN(s, sep, 2)` for a one-character separator:
the part before the first separator and, if a separator occurs, the rest. -/
def splitFirstOn (sep : Char) : Chars → Chars × Option Chars
  | [] => ([], none)
  | c :: rest =>
    if c = sep then ([], some rest)
    else
      let p := splitFirstOn sep rest
      (c :: p.1, p.2)

/-- A buildfile instruction: upper-cased command and raw argument text. -/
structure Instruction where
  command : Chars
  args : Chars
deriving DecidableEq, Repr

/-- The scanner loop of `flokafile.Parse`, carrying the pending
continuation instruction (`currentInstruction` in the Go code). -/
def parseLines : List Chars → Option Instruction → List Instruction
  | [], none => []
  | [], some cur => [cur]
  | l :: rest, cur =>
    let line := trimChars l
    if line = [] ∨ line.head? = some '#' then parseLines rest cur
    else if h : cur.isSome ∧ line.getLast? = some '\\' then
      let c := cur.get h.1
      parseLines rest (some ⟨c.command, c.args ++ ' ' :: trimChars line.dropLast⟩)
    else
      let flushed := cur.toList
      let p := splitFirstOn ' ' line
      let command := p.1.map Char.toUpper
      let args := match p.2 with
                  | some a => trimChars a
                  | none => []
      if args.getLast? = some '\\' then
        flushed ++ parseLines rest (some ⟨command, args.dropLast⟩)
      else
        flushed ++ (⟨command, args⟩ : Instruction) :: parseLines rest none

/-- `flokafile.Parse`, applied to the list of scanned lines. -/
def flokafileParse (lines : List Chars) : List Instruction :=
  parseLines lines none

/-! ## Filesystem model

The image store and the container directories live on a host filesystem.
`FS` models the parts of it the code touches: a set of directories and a
map from file paths to contents.  Paths are lists of components
(`Path`).  The modelled operations follow the documented semantics of
the Go standard library calls used by the sources:

* `os.MkdirAll` creates every missing ancestor, succeeds if the path is
  already a directory, and fails when a component exists as a file;
* `os.WriteFile` (`O_CREATE|O_TRUNC`) needs an existing parent directory
  and fails on a directory target;
* `os.OpenFile` with `O_APPEND|O_CREATE|O_WRONLY` (the ENV instruction)
  creates the file if absent but does NOT create parent directories;
* `os.Stat` succeeds on files and directories alike. -/
abbrev FPath := List Chars

structure FS where
  dirs : List FPath
  files : List (FPath × Chars)
deriving DecidableEq, Repr

def FS.isDir (fs : FS) (p : FPath) : Bool := fs.dirs.contains p

def FS.isFile (fs : FS) (p : FPath) : Bool := (fs.files.lookup p).isSome

/-- `os.Stat(p)` succeeds (`err == nil`). -/
def FS.statOk (fs : FS) (p : FPath) : Bool := fs.isDir p || fs.isFile p

/-- All non-empty prefixes of a path, shortest first. -/
def pathPrefixes (p : FPath) : List FPath :=
  (List.range p.length).map (fun i => p.take (i + 1))

/-- `os.MkdirAll`. -/
def FS.mkdirAll (fs : FS) (p : FPath) : Except Chars FS :=
  if (pathPrefixes p).any fs.isFile then .error (chars "mkdir: not a directory")
  else .ok { fs with dirs := fs.dirs ++ pathPrefixes p }

/-- `os.WriteFile` / `os.Create` followed by writing `content`. -/
def FS.writeFile (fs : FS) (p : FPath) (content : Chars) : Except Chars FS :=
  if !(p.dropLast.isEmpty || fs.isDir p.dropLast) then
    .error (chars "open: no such file or directory")
  else if fs.isDir p then .error (chars "open: is a directory")
  else .ok { fs with files := (p, content) :: fs.files.filter (fun q => !(q.1 == p)) }

/-- `os.OpenFile(p, O_APPEND|O_CREATE|O_WRONLY, 0644)` followed by
writing `content`: needs the parent directory, creates the file if
absent, appends otherwise. -/
def FS.appendFile (fs : FS) (p : FPath) (content : Chars) : Except Chars FS :=
  if !(p.dropLast.isEmpty || fs.isDir p.dropLast) then
    .error (chars "open: no such file or directory")
  else if fs.isDir p then .error (chars "open: is a directory")
  else
    let old := ((fs.files.lookup p).getD [])
    .ok { fs with files := (p, old ++ content) :: fs.files.filter (fun q => !(q.1 == p)) }

/-- `os.ReadFile`. -/
def FS.readFile (fs : FS) (p : FPath) : Except Chars Chars :=
  match fs.files.lookup p with
  | some c => .ok c
  | none => .error (chars "open: no such file or directory")

/-- `dirSize` from pkg/fimage/fimage.go: walk the tree under `p` and sum
the sizes of the files (directories contribute nothing). -/
def FS.dirSize (fs : FS) (p : FPath) : Nat :=
  (fs.files.filter (fun f => p.isPrefixOf f.1)).foldl (fun a f => a + f.2.length) 0

/-! ## Image store: `Pull` (pkg/fimage/fimage.go) -/
/-- The image record of pkg/fimage (`Created` is wall-clock time and is
not modelled; `t` below stands for the `time.Now().UnixNano()` reads). -/
structure FImage where
  name : Chars
  tag : Chars
  id : Chars
  size : Nat
  layers : List Chars
  rootDir : FPath
deriving DecidableEq, Repr

/-- `fimage.Pull`: default the tag, and if `images/<name>:<tag>` exists
return an image record for it; otherwise create
`images/<name>:<tag>/rootfs/` and only then report "not found locally". -/
def Pull (fs : FS) (t : Nat) (name tag : Chars) : FS × Except Chars FImage :=
  let tag2 := if tag = [] then chars "latest" else tag
  let imageID := chars "img_" ++ natDigits t
  let imageFullName := name ++ chars ":" ++ tag2
  let imageDir : FPath := [chars "images", imageFullName]
  let rootDir : FPath := imageDir ++ [chars "rootfs"]
  if fs.statOk imageDir then
    (fs, .ok { name := name, tag := tag2, id := imageID, size := fs.dirSize rootDir,
               layers := [chars "base"], rootDir := rootDir })
  else
    match fs.mkdirAll rootDir with
    | .error e => (fs, .error (chars "failed to create image directory: " ++ e))
    | .ok fs2 =>
      (fs2, .error (chars "image " ++ imageFullName ++
        chars " not found locally and pull functionality is not implemented"))

/-! ## Container identifiers (`generateID`, `Run` in pkg/container/container.go) -/
/-- `generateID`: `fmt.Sprintf("cont_%d", time.Now().UnixNano())`,
parameterised by the nanosecond timestamp read. -/
def generateID (t : Nat) : Chars := chars "cont_" ++ natDigits t

/-- The container-directory allocation at the top of `container.Run`:
generate the ID and `os.MkdirAll("containers/<id>/rootfs")`. -/
def allocateContainerDir (fs : FS) (t : Nat) : Except Chars (Chars × FS) :=
  let containerID := generateID t
  match fs.mkdirAll [chars "containers", containerID, chars "rootfs"] with
  | .error e => .error (chars "failed to create container filesystem: " ++ e)
  | .ok fs2 => .ok (containerID, fs2)

/-- Two consecutive `Run` allocations (with their respective clock
reads); `some (id1, id2)` when both directory creations succeed. -/
def allocTwice (fs : FS) (t1 t2 : Nat) : Option (Chars × Chars) :=
  match allocateContainerDir fs t1 with
  | .error _ => none
  | .ok (id1, fs1) =>
    match allocateContainerDir fs1 t2 with
    | .error _ => none
    | .ok (id2, _) => some (id1, id2)

/-! ## Image build (`Build` in pkg/fimage/fimage.go)

`Build` rejects an existing target, creates `images/<tag>/rootfs/`, then
walks the buildfile line by line: `FROM` and `RUN` only log, `COPY`
copies a host file into the rootfs (creating the destination directory),
`ENV` appends `key=value\n` to `<rootfs>/etc/environment` via
`os.OpenFile(..., O_APPEND|O_CREATE|O_WRONLY, 0644)` — which does not
create the missing `etc/` directory — and anything else is an unknown
instruction.  The buildfile content is passed in as text (the read from
disk is not modelled); `filepath` path strings are modelled by splitting
on `/`. -/
/-- One iteration of the `Build` instruction loop at (0-based) index `i`;
returns the filesystem after the instruction and an error, if any. -/
def buildStep (rootDir : FPath) (fs : FS) (i : Nat) (rawLine : Chars) :
    FS × Option Chars :=
  let line := trimChars rawLine
  if line = [] ∨ line.head? = some '#' then (fs, none)
  else
    let p := splitFirstOn ' ' line
    match p.2 with
    | none => (fs, some (chars "invalid instruction at line " ++ natDigits (i + 1) ++
        chars ": " ++ line))
    | some args =>
      let instruction := p.1
      let cmd := instruction.map Char.toUpper
      if cmd = chars "FROM" then (fs, none)
      else if cmd = chars "RUN" then (fs, none)
      else if cmd = chars "COPY" then
        let cp := splitFirstOn ' ' args
        match cp.2 with
        | none => (fs, some (chars "invalid COPY instruction at line " ++ natDigits (i + 1)))
        | some dest =>
          let src := (splitOnChar '/' cp.1).filter (fun x => !x.isEmpty)
          let destComps := (splitOnChar '/' dest).filter (fun x => !x.isEmpty)
          match fs.mkdirAll (rootDir ++ destComps.dropLast) with
          | .error e => (fs, some (chars "failed to create destination directory: " ++ e))
          | .ok fs1 =>
            match fs1.readFile src with
            | .error e => (fs1, some (chars "failed to open source file: " ++ e))
            | .ok content =>
              match fs1.writeFile (rootDir ++ destComps) content with
              | .error e => (fs1, some (chars "failed to create destination file: " ++ e))
              | .ok fs2 => (fs2, none)
      else if cmd = chars "ENV" then
        let ep := splitFirstOn '=' args
        match ep.2 with
        | none => (fs, some (chars "invalid ENV instruction at line " ++ natDigits (i + 1)))
        | some value =>
          let key := ep.1
          match fs.appendFile (rootDir ++ [chars "etc", chars "environment"])
              (key ++ '=' :: value ++ ['\n']) with
          | .error e => (fs, some (chars "failed to open environment file: " ++ e))
          | .ok fs1 => (fs1, none)
      else (fs, some (chars "unknown instruction at line " ++ natDigits (i + 1) ++
        chars ": " ++ instruction))

/-- The `Build` instruction loop; stops at the first failing instruction. -/
def buildLoop (rootDir : FPath) : FS → Nat → List Chars → FS × Option Chars
  | fs, _, [] => (fs, none)
  | fs, i, l :: rest =>
    match buildStep rootDir fs i l with
    | (fs1, some e) => (fs1, some e)
    | (fs1, none) => buildLoop rootDir fs1 (i + 1) rest

/-- `saveImageMetadata`: create `metadata/` and write `image.info`
(the wall-clock `Created` line is not modelled). -/
def saveImageMetadata (fs : FS) (img : FImage) (imageDir : FPath) : Except Chars FS :=
  match fs.mkdirAll (imageDir ++ [chars "metadata"]) with
  | .error e => .error (chars "failed to create metadata directory: " ++ e)
  | .ok fs1 =>
    fs1.writeFile (imageDir ++ [chars "metadata", chars "image.info"])
      (chars "Name: " ++ img.name ++ chars "\nTag: " ++ img.tag ++
       chars "\nID: " ++ img.id ++ chars "\nSize: " ++ natDigits img.size ++
       chars " bytes\n")

/-- `fimage.Build` on buildfile text `content` and target tag `tag`. -/
def BuildImage (fs : FS) (t : Nat) (content : Chars) (tag : Chars) :
    FS × Except Chars FImage :=
  let imageDir : FPath := [chars "images", tag]
  let rootDir : FPath := imageDir ++ [chars "rootfs"]
  if fs.statOk imageDir then (fs, .error (chars "image " ++ tag ++ chars " already exists"))
  else
    match fs.mkdirAll rootDir with
    | .error e => (fs, .error (chars "failed to create image directory: " ++ e))
    | .ok fs1 =>
      match buildLoop rootDir fs1 0 (splitOnChar '\n' content) with
      | (fs2, some e) => (fs2, .error e)
      | (fs2, none) =>
        let pr := parseImageRef tag
        let img : FImage :=
          { name := pr.1, tag := pr.2, id := chars "img_" ++ natDigits t,
            size := fs2.dirSize rootDir,
            layers := [chars "base", chars "app", chars "config"], rootDir := rootDir }
        match saveImageMetadata fs2 img imageDir with
        | .error e => (fs2, .error (chars "failed to save image metadata: " ++ e))
        | .ok fs3 => (fs3, .ok img)

/-! ## Container lifecycle supervisor (`Run`/`prepareRootfs`/`setupCgroups`/
`Start`/`addProcessToCgroups` in pkg/container/container.go)

The supervisor's effects are syscalls and file writes on the host; their
success or failure depends on the kernel, so the embedding is
parameterised by an environment `RunEnv` of success oracles (one per
call site, keyed where the source loops over names) together with the
spawned PID and the child's exit status.  Each function returns the list
of effects (events) it performed, in order, or the error that aborted
it.  `updateMetadata` (an `os.MkdirAll` of the metadata directory plus a
JSON `os.WriteFile`) is collapsed into one oracle per status value; its
event records the status and PID written.  On an error return the
events already performed are dropped — only traces of runs that reach a
result are inspected by the theorems. -/
/-- One supervisor effect. -/
inductive Ev where
  | mkdir (p : FPath)
  | bindMount (source : Chars) (target : FPath)
  | selfInsert (target : FPath)
  | metaWrite (status : String) (pid : Int)
  | cgMkdir (p : FPath)
  | cgWrite (p : FPath) (value : Int)
  | spawn (pid : Int)
deriving DecidableEq, Repr

/-- Success oracles and child behaviour for one `Run` invocation. -/
structure RunEnv where
  mkdirRunOk : Bool
  mkdirPrepOk : Bool
  bindMountOk : Bool
  mkdirPointOk : Chars → Bool
  readExeOk : Bool
  writeExeOk : Bool
  mkdirMetaOk : Bool
  metaWriteOk : String → Bool
  cgroupV2 : Bool
  cgMkdirOk : Chars → Bool
  cgWriteOk : Chars → Bool
  spawnOk : Bool
  spawnPid : Int
  attachWriteOk : Chars → Bool
  childExitCode : Int

/-- The container record of pkg/container. -/
structure ContainerR where
  id : Chars
  image : Chars
  command : List Chars
  status : String
  pid : Int
deriving DecidableEq, Repr

/-- Resource options (`ContainerOpts`). -/
structure COpts where
  memory : Int
  cpuShares : Int
deriving DecidableEq, Repr

def cgroupBase : FPath := [chars "sys", chars "fs", chars "cgroup"]

/-- The five directories created under the container rootfs by
`prepareRootfs` (the Go code uses the single path string
`"usr/local/bin"` for the last one). -/
def mountPointDirs : List Chars :=
  [chars "proc", chars "sys", chars "dev", chars "tmp", chars "usr/local/bin"]

def exePath (rootfs : FPath) : FPath :=
  rootfs ++ [chars "usr", chars "local", chars "bin", chars "floka"]

/-- The `os.MkdirAll` loop over the standard mount points. -/
def mkMountPoints (env : RunEnv) (rootfs : FPath) : List Chars → Except String (List Ev)
  | [] => .ok []
  | d :: ds =>
    if !env.mkdirPointOk d then .error "failed to create dir in rootfs"
    else
      match mkMountPoints env rootfs ds with
      | .error e => .error e
      | .ok evs => .ok (Ev.mkdir (rootfs ++ [d]) :: evs)

/-- `prepareRootfs`: mkdir the rootfs, bind-mount the image onto it,
create the mount-point directories, and copy the running executable to
`<rootfs>/usr/local/bin/floka` (self-insertion; the read of the host
executable has no filesystem effect in the model). -/
def prepareRootfs (env : RunEnv) (rootfs : FPath) (image : Chars) :
    Except String (List Ev) :=
  if !env.mkdirPrepOk then .error "failed to create rootfs"
  else if !env.bindMountOk then .error "failed to bind mount image to rootfs"
  else
    match mkMountPoints env rootfs mountPointDirs with
    | .error e => .error e
    | .ok pts =>
      if !env.readExeOk then .error "failed to read host executable"
      else if !env.writeExeOk then .error "failed to write executable to rootfs"
      else .ok (Ev.mkdir rootfs :: Ev.bindMount image rootfs :: pts ++
        [Ev.selfInsert (exePath rootfs)])

/-- The v1 subsystem loop of `setupCgroups` (`memory` writes
`memory.limit_in_bytes` when a limit is set, `cpu` writes `cpu.shares`
when shares are set). -/
def setupCgroupsV1 (env : RunEnv) (containerID : Chars) (opts : COpts) :
    List Chars → Except String (List Ev)
  | [] => .ok []
  | s :: ss =>
    let dir := cgroupBase ++ [s, chars "floka", containerID]
    if !env.cgMkdirOk s then .error "failed to create cgroup directory (v1)"
    else
      match
        (if s = chars "memory" then
          (if opts.memory > 0 then
            (if env.cgWriteOk (chars "memory.limit_in_bytes") then
              .ok [Ev.cgWrite (dir ++ [chars "memory.limit_in_bytes"]) opts.memory]
            else .error "failed to set memory limit")
          else .ok [])
        else if s = chars "cpu" then
          (if opts.cpuShares > 0 then
            (if env.cgWriteOk (chars "cpu.shares") then
              .ok [Ev.cgWrite (dir ++ [chars "cpu.shares"]) opts.cpuShares]
            else .error "failed to set CPU shares")
          else .ok [])
        else (.ok [] : Except String (List Ev))) with
      | .error e => .error e
      | .ok ws =>
        match setupCgroupsV1 env containerID opts ss with
        | .error e => .error e
        | .ok rest => .ok (Ev.cgMkdir dir :: ws ++ rest)

/-- `setupCgroups`: detect v2 by `cgroup.controllers` (modelled by the
`cgroupV2` oracle), then create the floka cgroup directory and write the
limits; v2 writes `memory.max` and the converted `cpu.weight`. -/
def setupCgroups (env : RunEnv) (containerID : Chars) (opts : COpts) :
    Except String (List Ev) :=
  if env.cgroupV2 then
    let dir := cgroupBase ++ [chars "floka", containerID]
    if !env.cgMkdirOk (chars "") then .error "failed to create cgroup directory (v2)"
    else
      match
        (if opts.memory > 0 then
          (if env.cgWriteOk (chars "memory.max") then
            .ok [Ev.cgWrite (dir ++ [chars "memory.max"]) opts.memory]
          else .error "failed to set memory limit")
        else (.ok [] : Except String (List Ev))) with
      | .error e => .error e
      | .ok memEvs =>
        match
          (if opts.cpuShares > 0 then
            (if env.cgWriteOk (chars "cpu.weight") then
              .ok [Ev.cgWrite (dir ++ [chars "cpu.weight"]) (cpuWeight opts.cpuShares)]
            else .error "failed to set CPU weight")
          else (.ok [] : Except String (List Ev))) with
        | .error e => .error e
        | .ok cpuEvs => .ok (Ev.cgMkdir dir :: memEvs ++ cpuEvs)
  else setupCgroupsV1 env containerID opts [chars "memory", chars "cpu"]

/-- `addProcessToCgroups`, called after spawn; the caller treats failure
as a warning, and in the v1 branch a failed `memory` write skips the
`cpu` write.  Returns the writes that happened. -/
def addProcessToCgroups (env : RunEnv) (containerID : Chars) (pid : Int) : List Ev :=
  if env.cgroupV2 then
    if env.attachWriteOk (chars "") then
      [Ev.cgWrite (cgroupBase ++ [chars "floka", containerID, chars "cgroup.procs"]) pid]
    else []
  else
    if env.attachWriteOk (chars "memory") then
      Ev.cgWrite (cgroupBase ++ [chars "memory", chars "floka", containerID,
        chars "tasks"]) pid ::
      (if env.attachWriteOk (chars "cpu") then
        [Ev.cgWrite (cgroupBase ++ [chars "cpu", chars "floka", containerID,
          chars "tasks"]) pid]
      else [])
    else []

/-- `Container.Start`: spawn the child (`/usr/local/bin/floka containerize
<cmd>` with new namespaces and `Chroot: rootfs`), record PID and
status `running` (metadata failure is a warning), attach to cgroups
(warning), block in `cmd.Wait()`, write status `stopped` (warning), and
propagate a non-zero child exit as the returned error. -/
def startContainer (env : RunEnv) (c : ContainerR) :
    Except String (ContainerR × List Ev) :=
  if !env.spawnOk then .error "failed to start container"
  else
    let pid := env.spawnPid
    let runningEvs := if env.metaWriteOk "running" then [Ev.metaWrite "running" pid] else []
    let attachEvs := addProcessToCgroups env c.id pid
    let stoppedEvs := if env.metaWriteOk "stopped" then [Ev.metaWrite "stopped" pid] else []
    if env.childExitCode ≠ 0 then .error "child exited with non-zero status"
    else .ok ({ c with pid := pid, status := "stopped" },
      Ev.spawn pid :: runningEvs ++ attachEvs ++ stoppedEvs)

/-- `container.Run` at clock read `t`: allocate the container directory,
prepare the rootfs, write the `created` metadata, configure cgroups when
options are given, and start the child. -/
def RunC (t : Nat) (env : RunEnv) (image : Chars) (command : List Chars)
    (opts : Option COpts) : Except String (ContainerR × List Ev) :=
  let containerID := generateID t
  let containerDir : FPath := [chars "containers", containerID]
  let rootfs := containerDir ++ [chars "rootfs"]
  if !env.mkdirRunOk then .error "failed to create container filesystem"
  else
    match prepareRootfs env rootfs image with
    | .error e => .error e
    | .ok prepEvs =>
      let c : ContainerR :=
        { id := containerID, image := image, command := command,
          status := "created", pid := 0 }
      if !env.mkdirMetaOk then .error "failed to create metadata directory"
      else if !env.metaWriteOk "created" then .error "failed to save container metadata"
      else
        match
          (match opts with
           | some o => setupCgroups env containerID o
           | none => (.ok [] : Except String (List Ev))) with
        | .error e => .error e
        | .ok cgEvs =>
          match startContainer env c with
          | .error e => .error e
          | .ok (c2, startEvs) =>
            .ok (c2, Ev.mkdir rootfs :: prepEvs ++
              (Ev.mkdir (containerDir ++ [chars "metadata"]) ::
               Ev.metaWrite "created" 0 :: cgEvs) ++ startEvs)

/-- Effects of a successful `prepareRootfs`, in order. -/
def prepTrace (rootfs : FPath) (image : Chars) : List Ev :=
  Ev.mkdir rootfs :: Ev.bindMount image rootfs ::
    mountPointDirs.map (fun d => Ev.mkdir (rootfs ++ [d])) ++
    [Ev.selfInsert (exePath rootfs)]

/-- Effects of a successful `setupCgroups`, in order. -/
def cgTrace (env : RunEnv) (cid : Chars) (opts : COpts) : List Ev :=
  if env.cgroupV2 then
    Ev.cgMkdir (cgroupBase ++ [chars "floka", cid]) ::
      (if opts.memory > 0 then
        [Ev.cgWrite (cgroupBase ++ [chars "floka", cid, chars "memory.max"]) opts.memory]
      else []) ++
      (if opts.cpuShares > 0 then
        [Ev.cgWrite (cgroupBase ++ [chars "floka", cid, chars "cpu.weight"])
          (cpuWeight opts.cpuShares)]
      else [])
  else
    Ev.cgMkdir (cgroupBase ++ [chars "memory", chars "floka", cid]) ::
      (if opts.memory > 0 then
        [Ev.cgWrite (cgroupBase ++ [chars "memory", chars "floka", cid,
          chars "memory.limit_in_bytes"]) opts.memory]
      else []) ++
      (Ev.cgMkdir (cgroupBase ++ [chars "cpu", chars "floka", cid]) ::
        (if opts.cpuShares > 0 then
          [Ev.cgWrite (cgroupBase ++ [chars "cpu", chars "floka", cid,
            chars "cpu.shares"]) opts.cpuShares]
        else []))

/-- Effects of a successful `Start`, in order. -/
def startTrace (env : RunEnv) (cid : Chars) : List Ev :=
  Ev.spawn env.spawnPid ::
    (if env.metaWriteOk "running" then [Ev.metaWrite "running" env.spawnPid] else []) ++
    addProcessToCgroups env cid env.spawnPid ++
    (if env.metaWriteOk "stopped" then [Ev.metaWrite "stopped" env.spawnPid] else [])

/-- Effects of a successful `Run` with resource options, in order. -/
def runTrace (t : Nat) (env : RunEnv) (image : Chars) (opts : Option COpts) : List Ev :=
  Ev.mkdir [chars "containers", generateID t, chars "rootfs"] ::
    prepTrace [chars "containers", generateID t, chars "rootfs"] image ++
    (Ev.mkdir [chars "containers", generateID t, chars "metadata"] ::
     Ev.metaWrite "created" 0 ::
     (match opts with
      | some o => cgTrace env (generateID t) o
      | none => [])) ++
    startTrace env (generateID t)

/-- The directory created first by `setupCgroups` (v2: the unified
`floka/<id>` directory; v1: the `memory` subsystem directory). -/
def cgFirstDir (env : RunEnv) (cid : Chars) : FPath :=
  if env.cgroupV2 then cgroupBase ++ [chars "floka", cid]
  else cgroupBase ++ [chars "memory", chars "floka", cid]

/-- The first cgroup-attachment write of `addProcessToCgroups`, when its
oracle lets it happen. -/
def attachFirst (env : RunEnv) (cid : Chars) : List Ev :=
  if env.cgroupV2 then
    (if env.attachWriteOk (chars "") then
      [Ev.cgWrite (cgroupBase ++ [chars "floka", cid, chars "cgroup.procs"]) env.spawnPid]
    else [])
  else
    (if env.attachWriteOk (chars "memory") then
      [Ev.cgWrite (cgroupBase ++ [chars "memory", chars "floka", cid, chars "tasks"])
        env.spawnPid]
    else [])

/-- The effects named by claim C5, in the claimed order: container
directory creation, bind mount, self-insertion, metadata write
(status=created), cgroup setup, spawn, metadata write (status=running),
cgroup attachment — the last two only when their (warning-only) writes
succeed. -/
def claimChain (t : Nat) (env : RunEnv) (image : Chars) : List Ev :=
  [Ev.mkdir [chars "containers", generateID t, chars "rootfs"],
   Ev.bindMount image [chars "containers", generateID t, chars "rootfs"],
   Ev.selfInsert (exePath [chars "containers", generateID t, chars "rootfs"]),
   Ev.metaWrite "created" 0,
   Ev.cgMkdir (cgFirstDir env (generateID t)),
   Ev.spawn env.spawnPid] ++
  (if env.metaWriteOk "running" then [Ev.metaWrite "running" env.spawnPid] else []) ++
  attachFirst env (generateID t)

/-- An environment in which every modelled operation succeeds, the
spawned child gets PID 4242, and the child exits 0 (cgroup v2 host). -/
def envAllOk : RunEnv :=
  { mkdirRunOk := true, mkdirPrepOk := true, bindMountOk := true,
    mkdirPointOk := fun _ => true, readExeOk := true, writeExeOk := true,
    mkdirMetaOk := true, metaWriteOk := fun _ => true, cgroupV2 := true,
    cgMkdirOk := fun _ => true, cgWriteOk := fun _ => true, spawnOk := true,
    spawnPid := 4242, attachWriteOk := fun _ => true, childExitCode := 0 }

/-! ## Container metadata (`updateMetadata` in pkg/container/container.go)

`updateMetadata` always serialises the same six keys — including `Pid`,
which is Go's zero value 0 before a spawn and keeps the child PID after
the container stops. -/
/-- A JSON value as used by the metadata map. -/
inductive MetaVal where
  | s (v : Chars)
  | n (v : Int)
  | arr (v : List Chars)
deriving DecidableEq, Repr

/-- The JSON object written by `updateMetadata` (the `Updated` value is
the wall-clock timestamp string, passed in). -/
def containerMetadata (c : ContainerR) (updated : Chars) : List (String × MetaVal) :=
  [("ID", .s c.id), ("Image", .s c.image), ("Command", .arr c.command),
   ("Status", .s (chars c.status)), ("Pid", .n c.pid), ("Updated", .s updated)]

/-! ## Process exit codes (`runContainerized` / `runContainerWithOpts` in
the cmd/main.go iteration that wires `run` up)

`runContainerized` (the init phase, inside the container) exits 1 when a
pseudo-filesystem mount or a non-`ExitError` run failure occurs, and
otherwise propagates the user command's exit code via
`os.Exit(exitError.ExitCode())` (0 on success).  `runContainerWithOpts`
(the supervisor) exits 1 on a memory-limit parse error, a Pull error, or
any `container.Run` error — including the error `Start` returns when
`cmd.Wait` reports a non-zero child exit — and returns normally (exit 0)
otherwise. -/
/-- Exit status of the init-phase `floka containerize` process:
`mountsOk` is the pseudo-filesystem mount loop, `cmdStartOk` is false
for a non-`ExitError` failure of `cmd.Run`, and `cmdExit` is the user
command's exit status. -/
def runContainerizedExit (mountsOk cmdStartOk : Bool) (cmdExit : Int) : Int :=
  if !mountsOk then 1
  else if !cmdStartOk then 1
  else cmdExit

/-- `filepath`-style rendering of a path, to pass `img.RootDir` on. -/
def joinPath (p : FPath) : Chars := List.intercalate (chars "/") p

/-- Exit status of the host `floka run` process (`runContainerWithOpts`):
parse the memory limit (exit 1 on error), build the options, default the
command, `fimage.Pull` (exit 1 on error, matching both its messages),
then `container.Run`; any error from it — including a non-zero child
exit propagated out of `cmd.Wait` — prints and exits 1, and on success
the process exits 0. -/
def runContainerWithOpts (t : Nat) (fs : FS) (env : RunEnv) (imageName : Chars)
    (command : List Chars) (memLimit : Chars) (cpuShares : Int) : Int :=
  match (if memLimit ≠ [] then parseMemoryLimit memLimit else some 0) with
  | none => 1
  | some mem =>
    let opts : COpts :=
      { memory := mem, cpuShares := if cpuShares > 0 then cpuShares else 0 }
    let command2 := if command = [] then [chars "/bin/sh"] else command
    match Pull fs t imageName (chars "latest") with
    | (_, .error _) => 1
    | (_, .ok img) =>
      match RunC t env (joinPath img.rootDir) command2 (some opts) with
      | .error _ => 1
      | .ok _ => 0

/-! ## Theorems -/

theorem valDigits_concat (cs : Chars) (c : Char) :
    valDigits (cs ++ [c]) = valDigits cs * 10 + charVal c := by
  unfold valDigits
  rw [List.foldl_append]
  rfl

theorem charVal_digitChar {m : Nat} (h : m < 10) : charVal (digitChar m) = m := by
  interval_cases m <;> decide

theorem isDigit_digitChar {m : Nat} (h : m < 10) : (digitChar m).isDigit = true := by
  interval_cases m <;> decide

theorem natDigitsF_spec :
    ∀ (fuel n : Nat), n < fuel →
      (natDigitsF fuel n ≠ [] ∧ (natDigitsF fuel n).all Char.isDigit = true ∧
        valDigits (natDigitsF fuel n) = n) := by
  intro fuel
  induction fuel with
  | zero => intro n h; omega
  | succ f ih =>
    intro n h
    by_cases hn : n < 10
    · simp only [natDigitsF, if_pos hn]
      refine ⟨by simp, ?_, ?_⟩
      · simp [List.all_cons, isDigit_digitChar hn]
      · show valDigits ([] ++ [digitChar n]) = n
        rw [valDigits_concat, charVal_digitChar hn]
        simp [valDigits]
    · have hpos : 0 < n := by omega
      have hlt : n / 10 < n := Nat.div_lt_self hpos (by omega)
      have hf : n / 10 < f := by omega
      obtain ⟨ih1, ih2, ih3⟩ := ih (n / 10) hf
      simp only [natDigitsF, if_neg hn]
      refine ⟨by simp, ?_, ?_⟩
      · have hd : (digitChar (n % 10)).isDigit = true :=
          isDigit_digitChar (Nat.mod_lt _ (by omega))
        simp [List.all_append, ih2, hd]
      · rw [valDigits_concat, ih3, charVal_digitChar (Nat.mod_lt _ (by omega))]
        omega

theorem natDigits_ne_nil (n : Nat) : natDigits n ≠ [] :=
  (natDigitsF_spec (n + 1) n (Nat.lt_succ_self n)).1

theorem natDigits_all_digit (n : Nat) : (natDigits n).all Char.isDigit = true :=
  (natDigitsF_spec (n + 1) n (Nat.lt_succ_self n)).2.1

theorem valDigits_natDigits (n : Nat) : valDigits (natDigits n) = n :=
  (natDigitsF_spec (n + 1) n (Nat.lt_succ_self n)).2.2

theorem natDigits_injective : Function.Injective natDigits := by
  intro a b h
  have := valDigits_natDigits a
  rw [h, valDigits_natDigits] at this
  omega

/-- A decimal digit is not a letter used as a size suffix or a sign. -/
theorem isDigit_ne (c : Char) (h : c.isDigit = true) :
    c ≠ 'k' ∧ c ≠ 'm' ∧ c ≠ 'g' ∧ c ≠ '-' ∧ c ≠ '+' := by
  refine ⟨?_, ?_, ?_, ?_, ?_⟩ <;> rintro rfl <;> simp [Char.isDigit] at h

/-- Lowercasing fixes decimal digits. -/
theorem toLower_digit (c : Char) (h : c.isDigit = true) : c.toLower = c := by
  simp only [Char.isDigit, Bool.and_eq_true, decide_eq_true_eq] at h
  have h2 : c.toNat ≤ 57 := by simp only [Char.toNat]; exact h.2
  unfold Char.toLower
  have h3 : ¬ (65 ≤ c.toNat ∧ c.toNat ≤ 90) := by omega
  simp only [ge_iff_le]
  rw [if_neg h3]

theorem wrap64_eq_of_bounds (v : Int) (h1 : -(2 ^ 63) ≤ v) (h2 : v ≤ 2 ^ 63 - 1) :
    wrap64 v = v := by
  unfold wrap64
  rw [Int.emod_eq_of_lt (by omega) (by omega)]
  omega

theorem natDigits_map_toLower (n : Nat) :
    (natDigits n).map Char.toLower = natDigits n := by
  have h := natDigits_all_digit n
  rw [List.all_eq_true] at h
  conv_rhs => rw [← List.map_id (natDigits n)]
  exact List.map_congr_left fun c hc => toLower_digit c (h c hc)

theorem parseIntGo_natDigits (n : Nat) (h : (n : Int) ≤ 2 ^ 63 - 1) :
    parseIntGo (natDigits n) = some (n : Int) := by
  have hall := natDigits_all_digit n
  obtain ⟨c, rest, hcr⟩ := List.exists_cons_of_ne_nil (natDigits_ne_nil n)
  have hc : c.isDigit = true := by
    rw [hcr, List.all_cons, Bool.and_eq_true] at hall
    exact hall.1
  obtain ⟨-, -, -, hcm, hcp⟩ := isDigit_ne c hc
  rw [hcr]
  have hgo : parseIntGo (c :: rest) = parseIntCore (c :: rest) false := by
    simp only [parseIntGo, if_neg hcm, if_neg hcp]
  rw [hgo]
  unfold parseIntCore
  rw [if_neg (by rw [← hcr]; exact natDigits_ne_nil n)]
  rw [← hcr, natDigits_all_digit n]
  simp only [if_true, Bool.false_eq_true, if_false]
  have hn' : n ≤ 2 ^ 63 - 1 := by
    have h2 : ((2 : Int) ^ 63 - 1) = ((2 ^ 63 - 1 : Nat) : Int) := by norm_num
    rw [h2] at h
    exact_mod_cast h
  rw [valDigits_natDigits n, if_pos hn']

theorem natDigits_getLast_not_suffix (n : Nat) :
    ¬ ((natDigits n).getLast? = some 'k') ∧
    ¬ ((natDigits n).getLast? = some 'm') ∧
    ¬ ((natDigits n).getLast? = some 'g') := by
  have hall := natDigits_all_digit n
  rw [List.all_eq_true] at hall
  refine ⟨?_, ?_, ?_⟩ <;> intro hlast <;>
    exact absurd (hall _ (List.mem_of_mem_getLast? hlast)) (by decide)

theorem stripSuffixKMG_natDigits (n : Nat) :
    stripSuffixKMG (natDigits n) = (1, natDigits n) := by
  obtain ⟨hk, hm, hg⟩ := natDigits_getLast_not_suffix n
  unfold stripSuffixKMG
  rw [if_neg hk, if_neg hm, if_neg hg]

theorem stripSuffixKMG_concat_k (xs : Chars) :
    stripSuffixKMG (xs ++ ['k']) = (1024, xs) := by
  unfold stripSuffixKMG
  rw [List.getLast?_concat, if_pos rfl, List.dropLast_concat]

theorem stripSuffixKMG_concat_m (xs : Chars) :
    stripSuffixKMG (xs ++ ['m']) = (1024 * 1024, xs) := by
  unfold stripSuffixKMG
  rw [List.getLast?_concat, if_neg (by decide), if_pos rfl, List.dropLast_concat]

theorem stripSuffixKMG_concat_g (xs : Chars) :
    stripSuffixKMG (xs ++ ['g']) = (1024 * 1024 * 1024, xs) := by
  unfold stripSuffixKMG
  rw [List.getLast?_concat, if_neg (by decide), if_neg (by decide), if_pos rfl,
    List.dropLast_concat]

theorem parseMemoryLimit_natDigits_mul (n : Nat) (s : Chars) (mult : Int)
    (hstrip : stripSuffixKMG ((natDigits n ++ s).map Char.toLower) = (mult, natDigits n))
    (hmult1 : 1 ≤ mult)
    (hbound : (n : Int) * mult ≤ 2 ^ 63 - 1) :
    parseMemoryLimit (natDigits n ++ s) = some ((n : Int) * mult) := by
  have hn : (n : Int) ≤ 2 ^ 63 - 1 :=
    le_trans (le_mul_of_one_le_right (Int.natCast_nonneg n) hmult1) hbound
  have hnn : (0 : Int) ≤ (n : Int) * mult :=
    mul_nonneg (Int.natCast_nonneg n) (by omega)
  unfold parseMemoryLimit
  rw [hstrip]
  rw [parseIntGo_natDigits n hn]
  rw [show Option.map (fun v => wrap64 (v * (mult, natDigits n).1)) (some (n : Int)) =
    some (wrap64 ((n : Int) * mult)) from rfl]
  rw [wrap64_eq_of_bounds _ (by omega) hbound]

theorem claimedSuffixValue_vals :
    claimedSuffixValue [] = 1 ∧
    claimedSuffixValue (chars "k") = 1024 ∧ claimedSuffixValue (chars "K") = 1024 ∧
    claimedSuffixValue (chars "m") = 1024 * 1024 ∧
    claimedSuffixValue (chars "M") = 1024 * 1024 ∧
    claimedSuffixValue (chars "g") = 1024 * 1024 * 1024 ∧
    claimedSuffixValue (chars "G") = 1024 * 1024 * 1024 := by
  refine ⟨?_, ?_, ?_, ?_, ?_, ?_, ?_⟩ <;> rfl

theorem stripSuffixKMG_lowered (n : Nat) (s : Chars)
    (hs : s = [] ∨ s = chars "k" ∨ s = chars "m" ∨ s = chars "g" ∨
          s = chars "K" ∨ s = chars "M" ∨ s = chars "G") :
    stripSuffixKMG ((natDigits n ++ s).map Char.toLower) =
      (claimedSuffixValue s, natDigits n) := by
  obtain ⟨h0, hk, hK, hm, hM, hg, hG⟩ := claimedSuffixValue_vals
  rcases hs with rfl | rfl | rfl | rfl | rfl | rfl | rfl <;>
    rw [List.map_append, natDigits_map_toLower]
  · rw [h0, show ([] : Chars).map Char.toLower = [] from rfl, List.append_nil,
      stripSuffixKMG_natDigits]
  · rw [hk, show (chars "k").map Char.toLower = ['k'] from rfl, stripSuffixKMG_concat_k]
  · rw [hm, show (chars "m").map Char.toLower = ['m'] from rfl, stripSuffixKMG_concat_m]
  · rw [hg, show (chars "g").map Char.toLower = ['g'] from rfl, stripSuffixKMG_concat_g]
  · rw [hK, show (chars "K").map Char.toLower = ['k'] from rfl, stripSuffixKMG_concat_k]
  · rw [hM, show (chars "M").map Char.toLower = ['m'] from rfl, stripSuffixKMG_concat_m]
  · rw [hG, show (chars "G").map Char.toLower = ['g'] from rfl, stripSuffixKMG_concat_g]

/-- Claim C4's round-trip, proved for all sizes that fit in an `int64`:
parsing `decimal(n) ++ s` yields `n · suffix_value(s)`. -/
theorem parseMemoryLimit_roundtrip (n : Nat) (s : Chars)
    (hs : s = [] ∨ s = chars "k" ∨ s = chars "m" ∨ s = chars "g" ∨
          s = chars "K" ∨ s = chars "M" ∨ s = chars "G")
    (hbound : (n : Int) * claimedSuffixValue s ≤ 2 ^ 63 - 1) :
    parseMemoryLimit (natDigits n ++ s) = some ((n : Int) * claimedSuffixValue s) := by
  have hmult1 : (1 : Int) ≤ claimedSuffixValue s := by
    obtain ⟨h0, hk, hK, hm, hM, hg, hG⟩ := claimedSuffixValue_vals
    rcases hs with rfl | rfl | rfl | rfl | rfl | rfl | rfl <;> omega
  exact parseMemoryLimit_natDigits_mul n s (claimedSuffixValue s)
    (stripSuffixKMG_lowered n s hs) hmult1 hbound

theorem parseIntCore_eq_none (rest : Chars) (b : Bool)
    (h : (!rest.isEmpty && rest.all Char.isDigit) = false) :
    parseIntCore rest b = none := by
  rw [Bool.and_eq_false_iff] at h
  unfold parseIntCore
  rcases h with h | h
  · have hnil : rest = [] := by cases rest <;> simp_all
    rw [if_pos hnil]
  · by_cases hnil : rest = []
    · rw [if_pos hnil]
    · rw [if_neg hnil, h]
      simp

theorem parseIntGo_eq_none (ds : Chars) (h : numericBody ds = false) :
    parseIntGo ds = none := by
  match ds with
  | [] => rfl
  | c :: rest =>
    simp only [numericBody] at h
    simp only [parseIntGo]
    by_cases hm : c = '-'
    · rw [if_pos hm]
      rw [if_pos (Or.inl hm)] at h
      exact parseIntCore_eq_none rest true h
    · rw [if_neg hm]
      by_cases hp : c = '+'
      · rw [if_pos hp]
        rw [if_pos (Or.inr hp)] at h
        exact parseIntCore_eq_none rest false h
      · rw [if_neg hp]
        rw [if_neg (fun hor => hor.elim hm hp)] at h
        unfold parseIntCore
        rw [if_neg (by simp), h]
        simp

/-- Non-numeric rejection: inputs not of the shape
`[sign] digits [kmg-suffix]` are rejected with an error. -/
theorem parseMemoryLimit_rejects (cs : Chars) (h : numericLimit cs = false) :
    parseMemoryLimit cs = none := by
  unfold numericLimit at h
  unfold parseMemoryLimit
  rw [parseIntGo_eq_none _ h]
  rfl

/-- Claim C4 (amended): for every natural `n` and suffix
`s ∈ {"", k, m, g}` (case-insensitive) such that `n · suffix_value(s)`
fits in an `int64`, parsing the decimal rendering of `n` followed by `s`
returns `n · suffix_value(s)`; and non-numeric input is rejected.
(The original claim quantified over all of ℕ; values outside the `int64`
range are rejected by `strconv.ParseInt(·, 10, 64)`.) -/
theorem claim_C4_amended :
    (∀ (n : Nat) (s : Chars),
      (s = [] ∨ s = chars "k" ∨ s = chars "m" ∨ s = chars "g" ∨
       s = chars "K" ∨ s = chars "M" ∨ s = chars "G") →
      (n : Int) * claimedSuffixValue s ≤ 2 ^ 63 - 1 →
      parseMemoryLimit (natDigits n ++ s) = some ((n : Int) * claimedSuffixValue s)) ∧
    (∀ cs : Chars, numericLimit cs = false → parseMemoryLimit cs = none) :=
  ⟨parseMemoryLimit_roundtrip, parseMemoryLimit_rejects⟩

/-- Claim C4 counterexample: at `n = 2^63` with the empty suffix the
claimed equation fails — `parseMemoryLimit` rejects the decimal
rendering of `2^63` (out of `int64` range) instead of returning it. -/
theorem claim_C4_counterexample :
    parseMemoryLimit (natDigits (2 ^ 63)) = none ∧
    (none : Option Int) ≠ some ((2 ^ 63 : Int) * claimedSuffixValue []) := by
  constructor
  · decide
  · decide

/-- Witness for claim C4's amended round-trip at `n = 512`, suffix `m`. -/
theorem claim_C4_witness :
    parseMemoryLimit (natDigits 512 ++ chars "m") =
      some ((512 : Int) * claimedSuffixValue (chars "m")) ∧
    (512 : Int) * claimedSuffixValue (chars "m") = 536870912 :=
  ⟨claim_C4_amended.1 512 (chars "m") (Or.inr (Or.inr (Or.inl rfl))) (by decide), by decide⟩

theorem tdiv_nonpos_of_nonpos {a d : Int} (ha : a ≤ 0) (hd : 0 ≤ d) :
    a.tdiv d ≤ 0 := by
  have h1 : a.tdiv d = -((-a).tdiv d) := by rw [← Int.neg_tdiv, neg_neg]
  have h2 : 0 ≤ (-a).tdiv d := Int.tdiv_nonneg (by omega) hd
  omega

theorem tdiv_le_tdiv_of_le {a b d : Int} (hd : 0 < d) (h : a ≤ b) :
    a.tdiv d ≤ b.tdiv d := by
  rcases le_or_lt 0 a with ha | ha
  · rw [Int.tdiv_eq_ediv ha hd.le, Int.tdiv_eq_ediv (le_trans ha h) hd.le]
    exact Int.ediv_le_ediv hd h
  · rcases le_or_lt 0 b with hb | hb
    · exact le_trans (tdiv_nonpos_of_nonpos ha.le hd.le) (Int.tdiv_nonneg hb hd.le)
    · have e1 : a.tdiv d = -((-a).tdiv d) := by rw [← Int.neg_tdiv, neg_neg]
      have e2 : b.tdiv d = -((-b).tdiv d) := by rw [← Int.neg_tdiv, neg_neg]
      have h3 : (-b).tdiv d ≤ (-a).tdiv d := by
        rw [Int.tdiv_eq_ediv (by omega) hd.le, Int.tdiv_eq_ediv (by omega) hd.le]
        exact Int.ediv_le_ediv hd (by omega)
      omega

theorem cpuWeight_eq_clamp (s : Int) :
    cpuWeight s = min (max (1 + ((s - 2) * 9998).tdiv 262142) 1) 10000 := by
  unfold cpuWeight
  simp only []
  split_ifs <;> omega

theorem cpuWeight_mono {a b : Int} (h : a ≤ b) : cpuWeight a ≤ cpuWeight b := by
  rw [cpuWeight_eq_clamp, cpuWeight_eq_clamp]
  have ht : ((a - 2) * 9998).tdiv 262142 ≤ ((b - 2) * 9998).tdiv 262142 :=
    tdiv_le_tdiv_of_le (by norm_num)
      (mul_le_mul_of_nonneg_right (by omega) (by norm_num))
  exact min_le_min (max_le_max (by omega) le_rfl) le_rfl

theorem cpuWeight_bounds (s : Int) : 1 ≤ cpuWeight s ∧ cpuWeight s ≤ 10000 := by
  rw [cpuWeight_eq_clamp]
  omega

theorem cpuWeight_below_range (s : Int) (h : s < 2) : cpuWeight s = 1 := by
  rw [cpuWeight_eq_clamp]
  have ht : ((s - 2) * 9998).tdiv 262142 ≤ 0 :=
    tdiv_nonpos_of_nonpos
      (mul_nonpos_iff.mpr (Or.inr ⟨by omega, by norm_num⟩)) (by norm_num)
  omega

/-- Claim C3 counterexample: the conversion maps shares `262144` to
weight `9999`, not `10000` as the claim states (the factor in the code
and in the claim's own formula is `9998`, so the image of `262144` is
`1 + 9998 = 9999`). -/
theorem claim_C3_counterexample :
    cpuWeight 262144 = 9999 ∧ cpuWeight 262144 ≠ 10000 := by
  constructor
  · decide
  · decide

/-- Claim C3 (amended): the conversion is monotonic non-decreasing, maps
shares `2` to weight `1` and shares `262144` to weight `9999` (not
`10000`), and clamps into `[1, 10000]` everywhere (in particular to `1`
for all shares below `2`). -/
theorem claim_C3_amended :
    (∀ a b : Int, a ≤ b → cpuWeight a ≤ cpuWeight b) ∧
    cpuWeight 2 = 1 ∧
    cpuWeight 262144 = 9999 ∧
    (∀ s : Int, 1 ≤ cpuWeight s ∧ cpuWeight s ≤ 10000) ∧
    (∀ s : Int, s < 2 → cpuWeight s = 1) :=
  ⟨fun _ _ h => cpuWeight_mono h, by decide, by decide,
    cpuWeight_bounds, cpuWeight_below_range⟩

/-- Witness for claim C3's amended statement at concrete shares values. -/
theorem claim_C3_witness :
    cpuWeight 1024 ≤ cpuWeight 2048 ∧ cpuWeight 1 = 1 :=
  ⟨claim_C3_amended.1 1024 2048 (by decide), claim_C3_amended.2.2.2.2 1 (by decide)⟩

theorem splitOnChar_ne_nil (sep : Char) (cs : Chars) : splitOnChar sep cs ≠ [] := by
  match cs with
  | [] => simp [splitOnChar]
  | c :: rest =>
    unfold splitOnChar
    split <;> simp

theorem splitOnChar_no_sep (sep : Char) (cs : Chars) (h : ¬ sep ∈ cs) :
    splitOnChar sep cs = [cs] := by
  induction cs with
  | nil => rfl
  | cons c rest ih =>
    show (let r := splitOnChar sep rest;
      if c = sep then [] :: r else (c :: r.headI) :: r.tail) = [c :: rest]
    rw [ih (fun hm => h (List.mem_cons_of_mem c hm))]
    simp [if_neg (show c ≠ sep by rintro rfl; exact h (List.mem_cons_self c rest))]

theorem splitOnChar_sep_append (sep : Char) (pre post : Chars) (h : ¬ sep ∈ pre) :
    splitOnChar sep (pre ++ sep :: post) = pre :: splitOnChar sep post := by
  induction pre with
  | nil => simp [splitOnChar]
  | cons c rest ih =>
    have hc : c ≠ sep := by rintro rfl; exact h (List.mem_cons_self c rest)
    have hrest : ¬ sep ∈ rest := fun hm => h (List.mem_cons_of_mem c hm)
    simp only [List.cons_append]
    show (let r := splitOnChar sep (rest ++ sep :: post);
      if c = sep then [] :: r else (c :: r.headI) :: r.tail) =
      (c :: rest) :: splitOnChar sep post
    rw [ih hrest]
    simp [if_neg hc]

/-- Claim C7 counterexample: a directory name with two colons is split at
the first colon, not the last — `"a:b:c"` parses to name `"a"`, tag `"b"`,
while the claim (split on the last `:`) requires name `"a:b"`, tag `"c"`. -/
theorem claim_C7_counterexample :
    parseImageRef (chars "a:b:c") = (chars "a", chars "b") ∧
    parseImageRef (chars "a:b:c") ≠ (chars "a:b", chars "c") := by
  constructor
  · decide
  · decide

/-- Claim C7 (amended): listing splits each directory name at the first
`:` — the name is the part before the first colon and the tag the segment
between the first and second colon — and a name with no `:` gets tag
`"latest"`.  Round-trip holds when neither part contains a colon. -/
theorem claim_C7_amended :
    (∀ fullName : Chars, ¬ ':' ∈ fullName →
      parseImageRef fullName = (fullName, chars "latest")) ∧
    (∀ name tag : Chars, ¬ ':' ∈ name → ¬ ':' ∈ tag →
      parseImageRef (name ++ ':' :: tag) = (name, tag)) := by
  constructor
  · intro fullName h
    unfold parseImageRef
    rw [if_neg (fun hc => h (List.elem_iff.mp hc))]
  · intro name tag hn ht
    unfold parseImageRef
    rw [if_pos (List.elem_iff.mpr (by simp))]
    rw [splitOnChar_sep_append ':' name tag hn, splitOnChar_no_sep ':' tag ht]
    simp

/-- Witness for claim C7's amended statement at concrete references. -/
theorem claim_C7_witness :
    parseImageRef (chars "ubuntu") = (chars "ubuntu", chars "latest") ∧
    parseImageRef (chars "alpine" ++ ':' :: chars "v1") = (chars "alpine", chars "v1") :=
  ⟨claim_C7_amended.1 (chars "ubuntu") (by decide),
   claim_C7_amended.2 (chars "alpine") (chars "v1") (by decide) (by decide)⟩

/-- Claim C2 (code bug): on the two-line buildfile
`RUN echo hello \` / `world` the parser does NOT fold the final line of
the continuation chain into the pending instruction.  It emits the
pending instruction `RUN "echo hello "` (with the whitespace before the
backslash preserved) and parses `world` as a separate instruction
`WORLD` with empty args, instead of the single claimed instruction
`RUN "echo hello world"`. -/
theorem claim_C2_theorem :
    flokafileParse [chars "RUN echo hello \\", chars "world"] =
      [⟨chars "RUN", chars "echo hello "⟩, ⟨chars "WORLD", []⟩] ∧
    flokafileParse [chars "RUN echo hello \\", chars "world"] ≠
      [⟨chars "RUN", chars "echo hello world"⟩] := by
  constructor
  · decide
  · decide

theorem generateID_injective (t1 t2 : Nat) (h : t1 ≠ t2) :
    generateID t1 ≠ generateID t2 := by
  intro he
  unfold generateID at he
  exact h (natDigits_injective (List.append_cancel_left he))

/-- Claim C8 counterexample: two `Run` allocations with the same
nanosecond timestamp (`time.Now().UnixNano() = 42` twice) produce the
SAME container ID, and the second directory creation succeeds anyway —
`os.MkdirAll` is idempotent, so directory creation does not enforce
uniqueness. -/
theorem claim_C8_counterexample :
    allocTwice ⟨[], []⟩ 42 42 = some (generateID 42, generateID 42) := by
  decide

theorem allocate_again (fs : FS) (t : Nat) (id : Chars) (fs1 : FS)
    (h : allocateContainerDir fs t = .ok (id, fs1)) :
    ∃ fs2, allocateContainerDir fs1 t = .ok (id, fs2) := by
  unfold allocateContainerDir at h ⊢
  unfold FS.mkdirAll at h ⊢
  simp only [] at h ⊢
  by_cases hany :
      (pathPrefixes [chars "containers", generateID t, chars "rootfs"]).any fs.isFile = true
  · rw [if_pos hany] at h
    exact absurd h (by simp)
  · rw [if_neg hany] at h
    simp only [Except.ok.injEq, Prod.mk.injEq] at h
    obtain ⟨hid, hfs1⟩ := h
    have hfile : fs1.isFile = fs.isFile := by
      funext p
      unfold FS.isFile
      rw [← hfs1]
    rw [hfile, if_neg hany, ← hid]
    exact ⟨_, rfl⟩

/-- Claim C8 (amended): the container ID is `cont_<UnixNano>`, so two
`Run` invocations get distinct IDs exactly when their clock reads differ;
directory creation does not enforce uniqueness, because `os.MkdirAll`
succeeds on an already-existing directory — re-allocating the same ID
succeeds with the same `containers/<id>/` directory. -/
theorem claim_C8_amended :
    (∀ t1 t2 : Nat, t1 ≠ t2 → generateID t1 ≠ generateID t2) ∧
    (∀ (fs : FS) (t : Nat) (id : Chars) (fs1 : FS),
      allocateContainerDir fs t = .ok (id, fs1) →
      ∃ fs2, allocateContainerDir fs1 t = .ok (id, fs2)) :=
  ⟨generateID_injective, allocate_again⟩

/-- Witness for claim C8's amended statement: distinct timestamps 1 and 2
give distinct IDs, and after a successful allocation at timestamp 7 the
same allocation still succeeds. -/
theorem claim_C8_witness :
    generateID 1 ≠ generateID 2 ∧
    (∃ fs2, allocateContainerDir
      ⟨[[chars "containers"], [chars "containers", chars "cont_7"],
        [chars "containers", chars "cont_7", chars "rootfs"]], []⟩ 7 =
      .ok (chars "cont_7", fs2)) :=
  ⟨claim_C8_amended.1 1 2 (by decide),
   claim_C8_amended.2 ⟨[], []⟩ 7 (chars "cont_7")
     ⟨[[chars "containers"], [chars "containers", chars "cont_7"],
       [chars "containers", chars "cont_7", chars "rootfs"]], []⟩ rfl⟩

theorem pathPrefixes_three (a b c : Chars) :
    pathPrefixes [a, b, c] = [[a], [a, b], [a, b, c]] := rfl

/-- Claim C10: when `images/<name>:<tag>` is absent (and the mkdir can
succeed), `Pull` first creates `images/<name>:<tag>/rootfs/` and only
then returns the "not found locally" error; the store is therefore
mutated on the error path and an immediately repeated `Pull` of the same
reference succeeds against an empty rootfs. -/
theorem claim_C10_theorem (fs : FS) (t t2 : Nat) (name tag : Chars)
    (htag : tag ≠ [])
    (h1 : fs.statOk [chars "images", name ++ chars ":" ++ tag] = false)
    (h2 : (pathPrefixes
      [chars "images", name ++ chars ":" ++ tag, chars "rootfs"]).any fs.isFile = false)
    (h3 : fs.dirSize [chars "images", name ++ chars ":" ++ tag, chars "rootfs"] = 0) :
    (Pull fs t name tag).2 = .error (chars "image " ++ (name ++ chars ":" ++ tag) ++
      chars " not found locally and pull functionality is not implemented") ∧
    (Pull fs t name tag).1.isDir
      [chars "images", name ++ chars ":" ++ tag, chars "rootfs"] = true ∧
    (Pull (Pull fs t name tag).1 t2 name tag).2 =
      .ok { name := name, tag := tag, id := chars "img_" ++ natDigits t2, size := 0,
            layers := [chars "base"],
            rootDir := [chars "images", name ++ chars ":" ++ tag, chars "rootfs"] } := by
  have hfst : Pull fs t name tag =
      ((⟨fs.dirs ++ pathPrefixes
          [chars "images", name ++ chars ":" ++ tag, chars "rootfs"], fs.files⟩ : FS),
       .error (chars "image " ++ (name ++ chars ":" ++ tag) ++
         chars " not found locally and pull functionality is not implemented")) := by
    unfold Pull
    simp only [if_neg htag]
    rw [h1]
    simp only [Bool.false_eq_true, if_false]
    unfold FS.mkdirAll
    simp only [List.cons_append, List.nil_append]
    rw [h2]
    simp only [Bool.false_eq_true, if_false]
  rw [hfst]
  set fs2 : FS := (⟨fs.dirs ++ pathPrefixes
    [chars "images", name ++ chars ":" ++ tag, chars "rootfs"], fs.files⟩ : FS) with hfs2
  refine ⟨rfl, ?_, ?_⟩
  · unfold FS.isDir
    rw [List.elem_iff]
    rw [hfs2]
    refine List.mem_append_right _ ?_
    rw [pathPrefixes_three]
    simp
  · have hdir : fs2.isDir [chars "images", name ++ chars ":" ++ tag] = true := by
      unfold FS.isDir
      rw [List.elem_iff, hfs2]
      refine List.mem_append_right _ ?_
      rw [pathPrefixes_three]
      simp
    have hstat : fs2.statOk [chars "images", name ++ chars ":" ++ tag] = true := by
      unfold FS.statOk
      rw [hdir]
      rfl
    have hsize : fs2.dirSize
        [chars "images", name ++ chars ":" ++ tag, chars "rootfs"] = 0 := by
      unfold FS.dirSize at h3 ⊢
      exact h3
    unfold Pull
    simp only [if_neg htag]
    rw [hstat]
    simp only [if_true, List.cons_append, List.nil_append]
    rw [hsize]

/-- Witness for claim C10 on the empty store with reference `alpine:latest`. -/
theorem claim_C10_witness :
    (Pull ⟨[], []⟩ 3 (chars "alpine") (chars "latest")).2 =
      .error (chars "image " ++ (chars "alpine" ++ chars ":" ++ chars "latest") ++
        chars " not found locally and pull functionality is not implemented") ∧
    (Pull ⟨[], []⟩ 3 (chars "alpine") (chars "latest")).1.isDir
      [chars "images", chars "alpine" ++ chars ":" ++ chars "latest", chars "rootfs"] = true ∧
    (Pull (Pull ⟨[], []⟩ 3 (chars "alpine") (chars "latest")).1 4
        (chars "alpine") (chars "latest")).2 =
      .ok { name := chars "alpine", tag := chars "latest",
            id := chars "img_" ++ natDigits 4, size := 0, layers := [chars "base"],
            rootDir := [chars "images", chars "alpine" ++ chars ":" ++ chars "latest",
              chars "rootfs"] } :=
  claim_C10_theorem ⟨[], []⟩ 3 4 (chars "alpine") (chars "latest")
    (by decide) (by decide) (by decide) (by decide)

/-- Claim C6 (code bug): building `FROM scratch\nENV GREETING=hi` into a
fresh tag `demo:v1` FAILS — `FROM` is a no-op, so the rootfs has no
`etc/` directory, and the ENV instruction's `O_APPEND|O_CREATE` open of
`<rootfs>/etc/environment` cannot create the missing parent directory.
The build aborts with "failed to open environment file" and the file
`images/demo:v1/rootfs/etc/environment` does not exist afterwards,
contradicting the claim that the build succeeds and the file contains
`GREETING=hi`. -/
theorem claim_C6_theorem :
    (BuildImage ⟨[], []⟩ 0 (chars "FROM scratch\nENV GREETING=hi") (chars "demo:v1")).2 =
      .error (chars "failed to open environment file: open: no such file or directory") ∧
    (BuildImage ⟨[], []⟩ 0 (chars "FROM scratch\nENV GREETING=hi")
      (chars "demo:v1")).1.isFile
      [chars "images", chars "demo:v1", chars "rootfs", chars "etc",
        chars "environment"] = false := by
  constructor
  · decide
  · decide

theorem mkMountPoints_ok (env : RunEnv) (rootfs : FPath) :
    ∀ (ds : List Chars) (evs : List Ev), mkMountPoints env rootfs ds = .ok evs →
      evs = ds.map (fun d => Ev.mkdir (rootfs ++ [d])) := by
  intro ds
  induction ds with
  | nil =>
    intro evs h
    simp only [mkMountPoints] at h
    cases h
    rfl
  | cons d ds ih =>
    intro evs h
    simp only [mkMountPoints] at h
    split at h
    · exact absurd h (by simp)
    · split at h
      · exact absurd h (by simp)
      · cases h
        rw [List.map_cons]
        congr 1
        exact ih _ (by assumption)

theorem prepareRootfs_ok (env : RunEnv) (rootfs : FPath) (image : Chars)
    (evs : List Ev) (h : prepareRootfs env rootfs image = .ok evs) :
    evs = prepTrace rootfs image := by
  simp only [prepareRootfs] at h
  split at h
  · exact absurd h (by simp)
  · split at h
    · exact absurd h (by simp)
    · split at h
      · exact absurd h (by simp)
      · rename_i pts hpts
        split at h
        · exact absurd h (by simp)
        · split at h
          · exact absurd h (by simp)
          · cases h
            rw [prepTrace, mkMountPoints_ok env rootfs mountPointDirs pts hpts]

theorem setupCgroupsV1_ok (env : RunEnv) (cid : Chars) (opts : COpts)
    (evs : List Ev)
    (h : setupCgroupsV1 env cid opts [chars "memory", chars "cpu"] = .ok evs) :
    evs = Ev.cgMkdir (cgroupBase ++ [chars "memory", chars "floka", cid]) ::
      (if opts.memory > 0 then
        [Ev.cgWrite (cgroupBase ++ [chars "memory", chars "floka", cid,
          chars "memory.limit_in_bytes"]) opts.memory]
      else []) ++
      (Ev.cgMkdir (cgroupBase ++ [chars "cpu", chars "floka", cid]) ::
        (if opts.cpuShares > 0 then
          [Ev.cgWrite (cgroupBase ++ [chars "cpu", chars "floka", cid,
            chars "cpu.shares"]) opts.cpuShares]
        else [])) := by
  have hmc : (chars "memory" = chars "cpu") = False := eq_false (by decide)
  have hcm : (chars "cpu" = chars "memory") = False := eq_false (by decide)
  by_cases h1 : env.cgMkdirOk (chars "memory") <;>
  by_cases h2 : env.cgWriteOk (chars "memory.limit_in_bytes") <;>
  by_cases h3 : env.cgMkdirOk (chars "cpu") <;>
  by_cases h4 : env.cgWriteOk (chars "cpu.shares") <;>
  by_cases h5 : opts.memory > 0 <;>
  by_cases h6 : opts.cpuShares > 0 <;>
  simp_all [setupCgroupsV1, hmc, hcm] <;>
  (try rw [← h]) <;>
  (repeat (first | rw [if_pos (by omega)] | rw [if_neg (by omega)])) <;>
  (try rfl)

theorem setupCgroups_ok (env : RunEnv) (cid : Chars) (opts : COpts)
    (evs : List Ev) (h : setupCgroups env cid opts = .ok evs) :
    evs = cgTrace env cid opts := by
  by_cases hv : env.cgroupV2
  · simp only [setupCgroups, if_pos hv] at h
    rw [cgTrace, if_pos hv]
    by_cases h1 : env.cgMkdirOk (chars "") <;>
    by_cases h2 : env.cgWriteOk (chars "memory.max") <;>
    by_cases h3 : env.cgWriteOk (chars "cpu.weight") <;>
    by_cases h5 : opts.memory > 0 <;>
    by_cases h6 : opts.cpuShares > 0 <;>
    simp_all <;>
    (try rw [← h]) <;>
    (repeat (first | rw [if_pos (by omega)] | rw [if_neg (by omega)])) <;>
    (try rfl)
  · simp only [setupCgroups, if_neg hv] at h
    rw [cgTrace, if_neg hv]
    exact setupCgroupsV1_ok env cid opts evs h

theorem startContainer_ok (env : RunEnv) (c : ContainerR)
    (c2 : ContainerR) (evs : List Ev)
    (h : startContainer env c = .ok (c2, evs)) :
    c2 = { c with pid := env.spawnPid, status := "stopped" } ∧
    evs = startTrace env c.id ∧ env.childExitCode = 0 := by
  simp only [startContainer] at h
  split at h
  · exact absurd h (by simp)
  · split at h
    · exact absurd h (by simp)
    · rename_i hexit
      cases h
      refine ⟨rfl, rfl, by simpa using hexit⟩

theorem runC_ok (t : Nat) (env : RunEnv) (image : Chars) (command : List Chars)
    (opts : Option COpts) (c : ContainerR) (tr : List Ev)
    (h : RunC t env image command opts = .ok (c, tr)) :
    tr = runTrace t env image opts ∧
    c = { id := generateID t, image := image, command := command,
          status := "stopped", pid := env.spawnPid } ∧
    env.childExitCode = 0 := by
  simp only [RunC] at h
  split at h
  · exact absurd h (by simp)
  · split at h
    · exact absurd h (by simp)
    · rename_i prepEvs hprep
      split at h
      · exact absurd h (by simp)
      · split at h
        · exact absurd h (by simp)
        · split at h
          · exact absurd h (by simp)
          · rename_i cgEvs hcg
            split at h
            · exact absurd h (by simp)
            · rename_i pr hstart
              cases h
              obtain ⟨hc2, hevs, hexit⟩ := startContainer_ok env
                { id := generateID t, image := image, command := command,
                  status := "created", pid := 0 } _ _ hstart
              refine ⟨?_, ?_, hexit⟩
              · unfold runTrace
                simp only [List.cons_append, List.nil_append] at hprep ⊢
                rw [prepareRootfs_ok env _ image prepEvs hprep, hevs]
                cases opts with
                | none =>
                  simp only [Except.ok.injEq] at hcg
                  rw [← hcg]
                | some o =>
                  rw [setupCgroups_ok env _ o cgEvs hcg]
              · rw [hc2]

/-- Claim C5: in every successful `Run` with resource options the
supervisor's effect trace is exactly `runTrace`, and the eight effects
named by the claim occur within it in the claimed order (`claimChain` is
an ordered sublist of the trace). -/
theorem claim_C5_theorem (t : Nat) (env : RunEnv) (image : Chars)
    (command : List Chars) (o : COpts) (c : ContainerR) (tr : List Ev)
    (h : RunC t env image command (some o) = .ok (c, tr)) :
    tr = runTrace t env image (some o) ∧
    (claimChain t env image).Sublist tr := by
  obtain ⟨htr, -, -⟩ := runC_ok t env image command (some o) c tr h
  refine ⟨htr, ?_⟩
  rw [htr]
  have key : ([Ev.mkdir [chars "containers", generateID t, chars "rootfs"]] ++
    ([Ev.bindMount image [chars "containers", generateID t, chars "rootfs"],
      Ev.selfInsert (exePath [chars "containers", generateID t, chars "rootfs"])] ++
    ([Ev.metaWrite "created" 0] ++
    ([Ev.cgMkdir (cgFirstDir env (generateID t))] ++
    ([Ev.spawn env.spawnPid] ++
    ((if env.metaWriteOk "running" then [Ev.metaWrite "running" env.spawnPid] else []) ++
    attachFirst env (generateID t))))))).Sublist
    ([Ev.mkdir [chars "containers", generateID t, chars "rootfs"]] ++
    (prepTrace [chars "containers", generateID t, chars "rootfs"] image ++
    ([Ev.mkdir [chars "containers", generateID t, chars "metadata"],
      Ev.metaWrite "created" 0] ++
    (cgTrace env (generateID t) o ++
    ([Ev.spawn env.spawnPid] ++
    ((if env.metaWriteOk "running" then [Ev.metaWrite "running" env.spawnPid] else []) ++
    (addProcessToCgroups env (generateID t) env.spawnPid ++
     (if env.metaWriteOk "stopped" then [Ev.metaWrite "stopped" env.spawnPid] else [])))))))) := by
    refine List.Sublist.append (List.Sublist.refl _) ?_
    refine List.Sublist.append ?_ ?_
    · rw [prepTrace]
      exact ((List.sublist_append_right _ _).cons₂ _).cons _
    refine List.Sublist.append ?_ ?_
    · exact ((List.nil_sublist _).cons₂ _).cons _
    refine List.Sublist.append ?_ ?_
    · rw [cgTrace, cgFirstDir]
      by_cases hv : env.cgroupV2
      · rw [if_pos hv, if_pos hv]
        exact (List.nil_sublist _).cons₂ _
      · rw [if_neg hv, if_neg hv]
        exact (List.nil_sublist _).cons₂ _
    refine List.Sublist.append (List.Sublist.refl _) ?_
    refine List.Sublist.append (List.Sublist.refl _) ?_
    refine List.Sublist.trans ?_ (List.sublist_append_left _ _)
    rw [attachFirst, addProcessToCgroups]
    by_cases hv : env.cgroupV2
    · rw [if_pos hv, if_pos hv]
    · rw [if_neg hv, if_neg hv]
      by_cases hm : env.attachWriteOk (chars "memory")
      · rw [if_pos hm, if_pos hm]
        exact (List.nil_sublist _).cons₂ _
      · rw [if_neg hm, if_neg hm]
  have hcc : claimChain t env image =
      ([Ev.mkdir [chars "containers", generateID t, chars "rootfs"]] ++
      ([Ev.bindMount image [chars "containers", generateID t, chars "rootfs"],
        Ev.selfInsert (exePath [chars "containers", generateID t, chars "rootfs"])] ++
      ([Ev.metaWrite "created" 0] ++
      ([Ev.cgMkdir (cgFirstDir env (generateID t))] ++
      ([Ev.spawn env.spawnPid] ++
      ((if env.metaWriteOk "running" then [Ev.metaWrite "running" env.spawnPid] else []) ++
      attachFirst env (generateID t))))))) := by
    simp [claimChain, List.append_assoc]
  have hrt : runTrace t env image (some o) =
      ([Ev.mkdir [chars "containers", generateID t, chars "rootfs"]] ++
      (prepTrace [chars "containers", generateID t, chars "rootfs"] image ++
      ([Ev.mkdir [chars "containers", generateID t, chars "metadata"],
        Ev.metaWrite "created" 0] ++
      (cgTrace env (generateID t) o ++
      ([Ev.spawn env.spawnPid] ++
      ((if env.metaWriteOk "running" then [Ev.metaWrite "running" env.spawnPid] else []) ++
      (addProcessToCgroups env (generateID t) env.spawnPid ++
       (if env.metaWriteOk "stopped" then [Ev.metaWrite "stopped" env.spawnPid] else [])))))))) := by
    simp [runTrace, startTrace, List.append_assoc]
  rw [hcc, hrt]
  exact key

/-- Witness for claim C5: a concrete successful run (64 MiB memory
limit, 512 CPU shares) whose trace is `runTrace` and contains the eight
claimed effects in order. -/
theorem claim_C5_witness :
    RunC 0 envAllOk (chars "alpine") [chars "/bin/sh"] (some ⟨67108864, 512⟩) =
      .ok ({ id := generateID 0, image := chars "alpine",
             command := [chars "/bin/sh"], status := "stopped", pid := 4242 },
           runTrace 0 envAllOk (chars "alpine") (some ⟨67108864, 512⟩)) ∧
    (claimChain 0 envAllOk (chars "alpine")).Sublist
      (runTrace 0 envAllOk (chars "alpine") (some ⟨67108864, 512⟩)) :=
  ⟨rfl, (claim_C5_theorem 0 envAllOk (chars "alpine") [chars "/bin/sh"]
    ⟨67108864, 512⟩ _ _ rfl).2⟩

/-- Claim C9 counterexample: the metadata of a freshly created container
(status `created`, before any spawn) already contains the `Pid` key
(with value 0) — the key is not reserved to running containers. -/
theorem claim_C9_counterexample :
    (containerMetadata
      ⟨chars "cont_42", chars "alpine", [chars "/bin/sh"], "created", 0⟩
      []).lookup "Pid" = some (MetaVal.n 0) ∧
    ("created" : String) ≠ "running" := by
  constructor
  · rfl
  · decide

/-- Claim C9 (amended): every persisted record contains the `Pid` key
with the container's current `Pid` field — 0 for records written before
the spawn (status `created`), and the child PID both at `running` and
retained at `stopped` (a successful run's final record has status
`stopped` and still carries the spawn PID). -/
theorem claim_C9_amended :
    (∀ (c : ContainerR) (updated : Chars),
      (containerMetadata c updated).lookup "Pid" = some (.n c.pid)) ∧
    (∀ (t : Nat) (env : RunEnv) (image : Chars) (command : List Chars)
        (o : COpts) (c : ContainerR) (tr : List Ev),
      RunC t env image command (some o) = .ok (c, tr) →
      Ev.metaWrite "created" 0 ∈ tr ∧
      (env.metaWriteOk "stopped" = true →
        Ev.metaWrite "stopped" env.spawnPid ∈ tr) ∧
      c.pid = env.spawnPid ∧ c.status = "stopped") := by
  constructor
  · intro c updated
    rfl
  · intro t env image command o c tr h
    obtain ⟨htr, hc, -⟩ := runC_ok t env image command (some o) c tr h
    refine ⟨?_, ?_, by rw [hc], by rw [hc]⟩
    · rw [htr]
      simp [runTrace]
    · intro hst
      rw [htr]
      simp [runTrace, startTrace, hst]

/-- Witness for claim C9 at a concrete stopped container and a concrete
successful run. -/
theorem claim_C9_witness :
    (containerMetadata
      ⟨chars "cont_1", chars "alpine", [chars "/bin/sh"], "stopped", 7⟩
      (chars "now")).lookup "Pid" = some (MetaVal.n 7) ∧
    (Ev.metaWrite "created" 0 ∈ runTrace 0 envAllOk (chars "alpine") (some ⟨0, 0⟩) ∧
     (envAllOk.metaWriteOk "stopped" = true →
       Ev.metaWrite "stopped" envAllOk.spawnPid ∈
         runTrace 0 envAllOk (chars "alpine") (some ⟨0, 0⟩)) ∧
     ({ id := generateID 0, image := chars "alpine", command := [chars "/bin/sh"],
        status := "stopped", pid := 4242 } : ContainerR).pid = envAllOk.spawnPid ∧
     ({ id := generateID 0, image := chars "alpine", command := [chars "/bin/sh"],
        status := "stopped", pid := 4242 } : ContainerR).status = "stopped") :=
  ⟨claim_C9_amended.1 ⟨chars "cont_1", chars "alpine", [chars "/bin/sh"], "stopped", 7⟩
      (chars "now"),
   claim_C9_amended.2 0 envAllOk (chars "alpine") [chars "/bin/sh"] ⟨0, 0⟩ _ _ rfl⟩

/-- Claim C1 counterexample: with the alpine image present and every
host-side operation succeeding, a containerized command that exits 7
makes the supervisor exit 1, not 7. -/
theorem claim_C1_counterexample :
    runContainerWithOpts 0
      ⟨[[chars "images"], [chars "images", chars "alpine:latest"],
        [chars "images", chars "alpine:latest", chars "rootfs"]], []⟩
      { envAllOk with childExitCode := 7 } (chars "alpine")
      [chars "/bin/sh", chars "-c", chars "exit 7"] [] 0 = 1 ∧
    (1 : Int) ≠ 7 := by
  constructor
  · rfl
  · decide

/-- Claim C1 (amended): the init-phase `floka` process inside the
container does exit with the containerized command's exact status, but
the supervisor process maps every child failure to exit status 1 — for
every run in which the child exits non-zero, the host `floka` process
exits 1, never the child's status. -/
theorem claim_C1_amended :
    (∀ n : Int, n ≠ 0 → runContainerizedExit true true n = n) ∧
    (∀ (t : Nat) (fs : FS) (env : RunEnv) (imageName : Chars)
        (command : List Chars) (memLimit : Chars) (cpuShares : Int),
      env.childExitCode ≠ 0 →
      runContainerWithOpts t fs env imageName command memLimit cpuShares = 1) := by
  constructor
  · intro n hn
    rfl
  · intro t fs env imageName command memLimit cpuShares hexit
    unfold runContainerWithOpts
    split
    · rfl
    · simp only []
      rcases hp : Pull fs t imageName (chars "latest") with ⟨fs2, r⟩
      rcases r with e | img
      · rfl
      · simp only []
        split
        · rfl
        · rename_i v hv
          obtain ⟨-, -, h0⟩ := runC_ok _ _ _ _ _ v.1 v.2 (by rw [hv])
          exact absurd h0 hexit

/-- Witness for claim C1's amended statement: exit 7 in the init phase
propagates as 7, and a supervisor whose child exits 7 exits 1. -/
theorem claim_C1_witness :
    runContainerizedExit true true 7 = 7 ∧
    runContainerWithOpts 0 ⟨[], []⟩ { envAllOk with childExitCode := 7 }
      (chars "busybox") [] [] 0 = 1 :=
  ⟨claim_C1_amended.1 7 (by decide),
   claim_C1_amended.2 0 ⟨[], []⟩ { envAllOk with childExitCode := 7 }
     (chars "busybox") [] [] 0 (by decide)⟩
